import Mathlib

/-
Verification of the SkyArchive SQM data-processing core.

The functions embedded here are, from js/services/dataService.js
(src/unnamed/part_000):
  * calculateMedian            (lines 152-163)
  * fetchAndParseSqm           (lines 167-228): its pure text-processing loop
    (lines 177-220) is embedded as parseSqm / processLine, and its cache
    consultation (lines 168-170, 221-222) as fetchAndParseSqm over an explicit
    cache state, with the network fetch replaced by the fetched text;
and from js/services/visualizationService.js (src/unnamed/part_001):
  * the histogram bucket-counting loop of createHistogram (lines 31-53),
    embedded as bucketize.

Modelling conventions:
  * JS strings are lists of characters (List Char); the JS string functions
    used by the source (split, trim, startsWith) are defined below with their
    JS semantics, restricted to the ASCII whitespace characters - the extra
    Unicode space characters matched by JS \s and by String.prototype.trim
    do not occur in SQM measurement files and are not modelled.
  * JS numbers are modelled twice. The finite-only model takes exact
    rationals with Option.none for a failed parse; there both NaN and the
    infinities of JS collapse to none. The extended model (JSNumX,
    parseFloatX, processLineX) keeps NaN and the signed infinities distinct
    and recognises the Infinity literal of the JS parseFloat grammar, as the
    isNaN-only discard of the source distinguishes NaN from Infinity; the
    theorem parseFloatX_finite_agrees proves that the finite-only parseFloat
    is exactly the finite part of the extended one. IEEE-754 rounding, and
    overflow of finite decimal literals to Infinity (such as 1e999), remain
    outside both exact models.
  * The mutable arrays of calculateMedian are additionally modelled with an
    explicit store (calculateMedianInStore) to state the no-mutation contract,
    and the module-level sqmCache as an explicit cache value threaded through
    fetchAndParseSqm.
-/

/-- The JS whitespace class \s, restricted to its ASCII members
(space, tab, line feed, carriage return, vertical tab, form feed). -/
def jsIsSpace (c : Char) : Bool :=
  c = ' ' ∨ c = '\t' ∨ c = '\n' ∨ c = '\r' ∨ c = '\x0b' ∨ c = '\x0c'

/-- JS String.prototype.split with a separator matching single characters
satisfying p: cuts at every such character and keeps empty pieces, so the
result is always non-empty. -/
def splitOnPred (p : Char → Bool) : List Char → List (List Char)
  | [] => [[]]
  | c :: cs =>
    let r := splitOnPred p cs
    if p c then [] :: r else (c :: r.headD []) :: r.tail

/-- textData.split of the newline character (part_000 line 177). -/
def splitLines (textData : List Char) : List (List Char) :=
  splitOnPred (fun c => c = '\n') textData

/-- Drops leading JS whitespace. -/
def jsTrimLeft (s : List Char) : List Char :=
  s.dropWhile jsIsSpace

/-- Drops trailing JS whitespace. -/
def jsTrimRight : List Char → List Char
  | [] => []
  | c :: cs =>
    let r := jsTrimRight cs
    if r.isEmpty && jsIsSpace c then [] else c :: r

/-- JS String.prototype.trim (ASCII whitespace; see the header comment). -/
def jsTrim (s : List Char) : List Char :=
  jsTrimRight (jsTrimLeft s)

/-- line.trim().split of runs of whitespace (part_000 line 193): on a trimmed
string, splitting on the regular expression of one-or-more whitespace
characters yields exactly the non-empty pieces of the single-character split.
(On an entirely blank line JS would yield one empty field where this yields
none; both have fewer than 9 fields, and the source only reaches the split on
lines whose trimmed form is non-empty.) -/
def jsFields (line : List Char) : List (List Char) :=
  (splitOnPred jsIsSpace (jsTrim line)).filter (fun w => !w.isEmpty)

/-- line.trim().startsWith of the hash character (part_000 line 185),
applied to an already-trimmed argument here. -/
def startsWithHash : List Char → Bool
  | '#' :: _ => true
  | _ => false

/-- Value of a list of decimal digit characters. -/
def natOfDigits (ds : List Char) : ℕ :=
  ds.foldl (fun n c => 10 * n + (c.toNat - 48)) 0

/-- The shape of a decimal literal recognised by JS parseFloat: sign, integer
digits, fraction digits, exponent sign and exponent digits. -/
structure FloatSyntax where
  sign : Bool
  ip : List Char
  fp : List Char
  expSign : Bool
  expDigits : List Char
  deriving Repr, DecidableEq

/-- The exponent part of a JS decimal literal: consumed only when an e or E
is directly followed by an (optionally signed) non-empty digit run. -/
def expPart (cs : List Char) : Bool × List Char :=
  if cs.headD ' ' = 'e' ∨ cs.headD ' ' = 'E' then
    let r := cs.tail
    let esign := cs.tail.headD ' ' = '-'
    let r2 := if r.headD ' ' = '-' ∨ r.headD ' ' = '+' then r.tail else r
    let ed := r2.takeWhile Char.isDigit
    if ed.length = 0 then (false, []) else (esign, ed)
  else (false, [])

/-- The syntactic phase of JS parseFloat: skip leading whitespace, then read
the longest prefix that is a signed decimal literal, ignoring any trailing
garbage; none models NaN (no digit in the mantissa). The Infinity literal of
the JS grammar is handled by the extended parseFloatX below. -/
def parseFloatSyntax (s : List Char) : Option FloatSyntax :=
  let cs0 := s.dropWhile jsIsSpace
  let neg := cs0.headD ' ' = '-'
  let cs1 := if cs0.headD ' ' = '-' ∨ cs0.headD ' ' = '+' then cs0.tail else cs0
  let ip := cs1.takeWhile Char.isDigit
  let cs2 := cs1.dropWhile Char.isDigit
  let hasDot := cs2.headD ' ' = '.'
  let fp := if hasDot then cs2.tail.takeWhile Char.isDigit else []
  let cs3 := if hasDot then cs2.tail.dropWhile Char.isDigit else cs2
  if ip.length = 0 ∧ fp.length = 0 then none
  else some ⟨neg, ip, fp, (expPart cs3).1, (expPart cs3).2⟩

/-- The value of a recognised decimal literal, as an exact rational
(IEEE-754 rounding and overflow are outside this model). -/
def floatValue (f : FloatSyntax) : ℚ :=
  (if f.sign then (-1 : ℚ) else 1) *
    ((natOfDigits f.ip : ℚ) + (natOfDigits f.fp : ℚ) / (10 : ℚ) ^ f.fp.length) *
    (10 : ℚ) ^ (if f.expSign then -(natOfDigits f.expDigits : ℤ) else (natOfDigits f.expDigits : ℤ))

/-- JS parseFloat in the finite-only model: the value of the recognised
literal, or none for NaN (the Infinity literal also maps to none here; the
extended parseFloatX below keeps it distinct). -/
def parseFloat (s : List Char) : Option ℚ :=
  (parseFloatSyntax s).map floatValue

/-- calculateMedian (part_000 lines 152-163): sort a spread copy of the input
ascending with the numeric comparator, then take the middle element (odd
count) or the mean of the two middle elements (even count); null on empty
input. The null-argument guard of the source has no counterpart for a
non-nullable list. -/
def calculateMedian (numbers : List ℚ) : Option ℚ :=
  if numbers.length = 0 then none
  else
    let sorted := numbers.mergeSort (fun a b => decide (a ≤ b))
    let middleIndex := sorted.length / 2
    if sorted.length % 2 = 0 then
      some ((sorted.getD (middleIndex - 1) 0 + sorted.getD middleIndex 0) / 2)
    else
      some (sorted.getD middleIndex 0)

/-- One entry pushed onto polarData (part_000 line 203). -/
structure PolarSample where
  time : List Char
  mag : ℚ
  alt : ℚ
  azi : ℚ
  deriving Repr, DecidableEq

/-- The processed result of fetchAndParseSqm (part_000 lines 216-220). -/
structure ProcessedSqmResult where
  medianSqm : Option ℚ
  allSqmValues : List ℚ
  polarData : List PolarSample
  deriving Repr, DecidableEq

/-- The mutable state of the parsing loop of fetchAndParseSqm
(part_000 lines 178-181). -/
structure ParseState where
  dataStarted : Bool
  sqmValuesForMedian : List ℚ
  allSqmValues : List ℚ
  polarData : List PolarSample
  deriving Repr, DecidableEq

/-- The JS range test (not-NaN(v) and lo <= v and v <= hi, part_000 line 202)
on one parseFloat result: false on NaN, otherwise the closed-range test. -/
def okRange (v : Option ℚ) (lo hi : ℚ) : Bool :=
  match v with
  | some a => lo ≤ a ∧ a ≤ hi
  | none => false

/-- The JS test (not-NaN(v) and v > bound, part_000 line 205) on one
parseFloat result: false on NaN, otherwise the strict comparison. -/
def okGt (v : Option ℚ) (b : ℚ) : Bool :=
  match v with
  | some a => b < a
  | none => false

/-- The header-skipping test of the loop (part_000 lines 184-190): before
data start, a line is skipped unless its trimmed form is non-empty and does
not start with a hash. -/
def skipsLine (st : ParseState) (t : List Char) : Prop :=
  st.dataStarted = false ∧ (startsWithHash t = true ∨ t.length = 0)

instance (st : ParseState) (t : List Char) : Decidable (skipsLine st t) :=
  inferInstanceAs (Decidable (st.dataStarted = false ∧ (startsWithHash t = true ∨ t.length = 0)))

/-- The polar-sample admission test (part_000 line 202): time truthy (a
non-empty string) and both angles parsing into their closed ranges. -/
def polarOk (time : List Char) (alt azi : Option ℚ) : Prop :=
  time ≠ [] ∧ okRange alt 0 90 = true ∧ okRange azi 0 360 = true

instance (time : List Char) (alt azi : Option ℚ) : Decidable (polarOk time alt azi) :=
  inferInstanceAs (Decidable (time ≠ [] ∧ okRange alt 0 90 = true ∧ okRange azi 0 360 = true))

/-- One iteration of the for-of loop of fetchAndParseSqm
(part_000 lines 183-210). -/
def processLine (st : ParseState) (line : List Char) : ParseState :=
  let t := jsTrim line
  if skipsLine st t then st
  else
    let st1 : ParseState := { st with dataStarted := true }
    if t.length = 0 then st1
    else
      let columns := jsFields line
      if 9 ≤ columns.length then
        let time := (columns[2]?).getD []
        let mag := parseFloat ((columns[5]?).getD [])
        let alt := parseFloat ((columns[7]?).getD [])
        let azi := parseFloat ((columns[8]?).getD [])
        match mag with
        | none => st1
        | some m =>
          let st2 : ParseState := { st1 with allSqmValues := st1.allSqmValues ++ [m] }
          let st3 : ParseState :=
            if polarOk time alt azi then
              { st2 with polarData := st2.polarData ++ [⟨time, m, alt.getD 0, azi.getD 0⟩] }
            else st2
          if okGt alt 45 = true then
            { st3 with sqmValuesForMedian := st3.sqmValuesForMedian ++ [m] }
          else st3
      else st1

/-- The final state of the parsing loop of fetchAndParseSqm on the fetched
text (part_000 lines 177-210). -/
def parseSqmState (textData : List Char) : ParseState :=
  (splitLines textData).foldl processLine ⟨false, [], [], []⟩

/-- The pure text-processing core of fetchAndParseSqm (part_000 lines
177-220): from the fetched text to the processed result. -/
def parseSqm (textData : List Char) : ProcessedSqmResult :=
  let st := parseSqmState textData
  { medianSqm :=
      if 0 < st.sqmValuesForMedian.length then calculateMedian st.sqmValuesForMedian
      else none
    allSqmValues := st.allSqmValues
    polarData := st.polarData }

/-- The module-level sqmCache (part_000 line 149) as an explicit value. -/
def SqmCache : Type :=
  List Char → Option ProcessedSqmResult

/-- The assignment sqmCache[sqmFileUrl] = processedData (part_000 line 221). -/
def cacheInsert (cache : SqmCache) (url : List Char) (r : ProcessedSqmResult) : SqmCache :=
  fun u => if u = url then some r else cache u

/-- fetchAndParseSqm (part_000 lines 167-228) with the cache passed and
returned explicitly and the network fetch replaced by the fetched text: on a
cache hit return the cached result (lines 168-170), otherwise process the
text and populate the cache (lines 177-222). -/
def fetchAndParseSqm (cache : SqmCache) (url textData : List Char) :
    ProcessedSqmResult × SqmCache :=
  match cache url with
  | some r => (r, cache)
  | none =>
    let r := parseSqm textData
    (r, cacheInsert cache url r)

/-- The array copy and in-place sort of calculateMedian made explicit: the
arrays live in a store (a list of arrays addressed by position), the spread
copy of line 156 allocates a fresh array at the end of the store, and the
sort is an in-place update of that fresh array only. Returns the result
together with the final store. -/
def calculateMedianInStore (store : List (List ℚ)) (addr : ℕ) :
    Option ℚ × List (List ℚ) :=
  let numbers := store.getD addr []
  if numbers.length = 0 then (none, store)
  else
    let copyAddr := store.length
    let store1 := store ++ [numbers]
    let store2 := store1.set copyAddr
      ((store1.getD copyAddr []).mergeSort (fun a b => decide (a ≤ b)))
    let sorted := store2.getD copyAddr []
    let middleIndex := sorted.length / 2
    if sorted.length % 2 = 0 then
      (some ((sorted.getD (middleIndex - 1) 0 + sorted.getD middleIndex 0) / 2), store2)
    else
      (some (sorted.getD middleIndex 0), store2)

/-- A line the header loop of fetchAndParseSqm skips before data start
(part_000 lines 184-190): trimmed form empty or starting with a hash. -/
def isHeaderLine (line : List Char) : Bool :=
  startsWithHash (jsTrim line) || (jsTrim line).isEmpty

/-- Per-line view of the loop body after data start: the magnitude the line
contributes to allSqmValues, none when the line is dropped (blank, fewer
than 9 fields, or magnitude not parsing). -/
def lineMag (line : List Char) : Option ℚ :=
  if (jsTrim line).length = 0 then none
  else
    let columns := jsFields line
    if 9 ≤ columns.length then parseFloat ((columns[5]?).getD []) else none

/-- Per-line view of the loop body after data start: the sample the line
contributes to polarData, if any. -/
def linePolar (line : List Char) : Option PolarSample :=
  if (jsTrim line).length = 0 then none
  else
    let columns := jsFields line
    if 9 ≤ columns.length then
      match parseFloat ((columns[5]?).getD []) with
      | none => none
      | some m =>
        let time := (columns[2]?).getD []
        let alt := parseFloat ((columns[7]?).getD [])
        let azi := parseFloat ((columns[8]?).getD [])
        if polarOk time alt azi then some ⟨time, m, alt.getD 0, azi.getD 0⟩
        else none
    else none

/-- Per-line view of the loop body after data start: the magnitude the line
contributes to the high-altitude median buffer, if any (altitude parses and
exceeds 45). -/
def lineHighMag (line : List Char) : Option ℚ :=
  if (jsTrim line).length = 0 then none
  else
    let columns := jsFields line
    if 9 ≤ columns.length then
      match parseFloat ((columns[5]?).getD []) with
      | none => none
      | some m =>
        if okGt (parseFloat ((columns[7]?).getD [])) 45 = true then some m else none
    else none

/-- The magnitudes feeding the median, described as in the specification:
over the data portion of the text (after the leading header/comment block),
the magnitudes of the lines whose altitude field parses and exceeds 45. -/
def highAltMags (textData : List Char) : List ℚ :=
  ((splitLines textData).dropWhile isHeaderLine).filterMap lineHighMag

/-- Histogram bucket counting of createHistogram (part_001 lines 31-53).
Buckets are positional: index 0 is the below-minRange bucket, indices
1..numCoreBins the interior buckets, index numCoreBins + 1 the at-or-above-
maxRange bucket (the source stores display labels at the same positions).
The isNaN guard of the source (line 44) cannot fire in the rational model. -/
def bucketize (sqmValues : List ℚ) (binWidth minRange maxRange : ℚ) : List ℕ :=
  let numCoreBins := (round ((maxRange - minRange) / binWidth)).toNat
  let numLabels := numCoreBins + 2
  sqmValues.foldl (fun bins v =>
    if v < minRange then bins.set 0 (bins.getD 0 0 + 1)
    else if maxRange ≤ v then bins.set (numLabels - 1) (bins.getD (numLabels - 1) 0 + 1)
    else
      let binIndex : ℤ := ⌊(v - minRange) / binWidth⌋ + 1
      if 0 < binIndex ∧ binIndex < (numLabels : ℤ) - 1 then
        bins.set binIndex.toNat (bins.getD binIndex.toNat 0 + 1)
      else if v = minRange then bins.set 1 (bins.getD 1 0 + 1)
      else bins)
    (List.replicate numLabels 0)

/-- Concrete data line with altitude 30: time field "12:00:00", magnitude
20.5, altitude 30, azimuth 100 (fields 2, 5, 7, 8 of 9). -/
def exAlt30 : List Char :=
  "A B 12:00:00 C D 20.5 E 30 100".data

/-- Concrete first data line whose magnitude field does not parse: 9 fields,
all of them alphabetic. -/
def exNoMag : List Char :=
  "p q r s t u v w x".data

/-- Concrete comment line carrying 9 fields with a parsable magnitude field
(20.5), altitude 50 and azimuth 100. -/
def exCommentLine : List Char :=
  "# b c d e 20.5 g 50 100".data

/-- Concrete input whose second line is exCommentLine. -/
def exCommentData : List Char :=
  "p q r s t u v w x\n# b c d e 20.5 g 50 100".data

/-- Concrete data line with azimuth 400 (out of range) and altitude 50. -/
def exAzi400 : List Char :=
  "A B 12:00:00 C D 20.5 E 50 400".data

/-- Whether the second list starts with the first (character-sequence test
used for the Infinity literal of the JS parseFloat grammar). -/
def startsWithSeq : List Char → List Char → Bool
  | [], _ => true
  | _ :: _, [] => false
  | p :: ps, c :: cs => p = c && startsWithSeq ps cs

/-- A JS number as produced by parseFloat, with the non-finite values kept:
NaN, the two infinities, or a finite value (exact rational). This extended
domain makes the isNaN-only discard of the source statable; IEEE-754
rounding and overflow of finite literals remain outside the model. -/
inductive JSNumX where
  | nan
  | posInf
  | negInf
  | fin (q : ℚ)
  deriving Repr, DecidableEq

/-- JS parseFloat over the extended domain: after whitespace and sign, the
Infinity literal (as a prefix, per the JS grammar) yields the signed
infinity; otherwise the finite parse of parseFloat applies, with NaN for no
parse. -/
def parseFloatX (s : List Char) : JSNumX :=
  let cs0 := s.dropWhile jsIsSpace
  let cs1 := if cs0.headD ' ' = '-' ∨ cs0.headD ' ' = '+' then cs0.tail else cs0
  if startsWithSeq "Infinity".data cs1 = true then
    if cs0.headD ' ' = '-' then JSNumX.negInf else JSNumX.posInf
  else
    match parseFloat s with
    | some q => JSNumX.fin q
    | none => JSNumX.nan

/-- The JS range test (not-NaN(v) and lo <= v and v <= hi) on the extended
domain: NaN fails the isNaN guard; +Infinity satisfies lo <= v but fails
v <= hi; -Infinity fails lo <= v; so only finite in-range values pass. -/
def okRangeX (v : JSNumX) (lo hi : ℚ) : Bool :=
  match v with
  | JSNumX.fin a => lo ≤ a ∧ a ≤ hi
  | _ => false

/-- The JS test (not-NaN(v) and v > bound) on the extended domain: NaN fails
the isNaN guard, +Infinity exceeds every bound, -Infinity none. -/
def okGtX (v : JSNumX) (b : ℚ) : Bool :=
  match v with
  | JSNumX.fin a => b < a
  | JSNumX.posInf => true
  | _ => false

/-- A polarData entry over the extended domain (part_000 line 203). -/
structure PolarSampleX where
  time : List Char
  mag : JSNumX
  alt : JSNumX
  azi : JSNumX
  deriving Repr, DecidableEq

/-- The loop state of fetchAndParseSqm over the extended domain
(part_000 lines 178-181). -/
structure ParseStateX where
  dataStarted : Bool
  sqmValuesForMedian : List JSNumX
  allSqmValues : List JSNumX
  polarData : List PolarSampleX
  deriving Repr, DecidableEq

/-- The header-skipping test (part_000 lines 184-190) over the extended
state. -/
def skipsLineX (st : ParseStateX) (t : List Char) : Prop :=
  st.dataStarted = false ∧ (startsWithHash t = true ∨ t.length = 0)

instance (st : ParseStateX) (t : List Char) : Decidable (skipsLineX st t) :=
  inferInstanceAs (Decidable (st.dataStarted = false ∧ (startsWithHash t = true ∨ t.length = 0)))

/-- The polar-sample admission test (part_000 line 202) over the extended
domain. -/
def polarOkX (time : List Char) (alt azi : JSNumX) : Prop :=
  time ≠ [] ∧ okRangeX alt 0 90 = true ∧ okRangeX azi 0 360 = true

instance (time : List Char) (alt azi : JSNumX) : Decidable (polarOkX time alt azi) :=
  inferInstanceAs (Decidable (time ≠ [] ∧ okRangeX alt 0 90 = true ∧ okRangeX azi 0 360 = true))

/-- One iteration of the for-of loop of fetchAndParseSqm (part_000 lines
183-210) over the extended domain: only an isNaN magnitude is discarded
(line 200), so an infinite magnitude is pushed like any other. -/
def processLineX (st : ParseStateX) (line : List Char) : ParseStateX :=
  let t := jsTrim line
  if skipsLineX st t then st
  else
    let st1 : ParseStateX := { st with dataStarted := true }
    if t.length = 0 then st1
    else
      let columns := jsFields line
      if 9 ≤ columns.length then
        let time := (columns[2]?).getD []
        let mag := parseFloatX ((columns[5]?).getD [])
        let alt := parseFloatX ((columns[7]?).getD [])
        let azi := parseFloatX ((columns[8]?).getD [])
        match mag with
        | JSNumX.nan => st1
        | m =>
          let st2 : ParseStateX := { st1 with allSqmValues := st1.allSqmValues ++ [m] }
          let st3 : ParseStateX :=
            if polarOkX time alt azi then
              { st2 with polarData := st2.polarData ++ [⟨time, m, alt, azi⟩] }
            else st2
          if okGtX alt 45 = true then
            { st3 with sqmValuesForMedian := st3.sqmValuesForMedian ++ [m] }
          else st3
      else st1

/-- The final state of the parsing loop over the extended domain
(part_000 lines 177-210). -/
def parseSqmStateX (textData : List Char) : ParseStateX :=
  (splitLines textData).foldl processLineX ⟨false, [], [], []⟩

/-- Concrete data line whose magnitude field is the Infinity literal, with
time 12:00:00, altitude 50 and azimuth 100 (fields 2, 5, 7, 8 of 9). -/
def exInfLine : List Char :=
  "A B 12:00:00 C D Infinity E 50 100".data

/-- Splitting off the head of a filterMap through Option.toList. -/
theorem filterMap_cons_toList {α β : Type} (f : α → Option β) (a : α) (l : List α) :
    List.filterMap f (a :: l) = (f a).toList ++ List.filterMap f l := by
  cases h : f a <;> simp [List.filterMap_cons, h]

/-- Before data start, a header line (comment or blank) leaves the loop state
unchanged. -/
theorem processLine_header {st : ParseState} {line : List Char}
    (hds : st.dataStarted = false) (hh : isHeaderLine line = true) :
    processLine st line = st := by
  have h1 : startsWithHash (jsTrim line) = true ∨ (jsTrim line).length = 0 := by
    have h2 := hh
    simp only [isHeaderLine, Bool.or_eq_true, List.isEmpty_iff] at h2
    rcases h2 with h | h
    · exact Or.inl h
    · exact Or.inr (by simp [h])
  simp only [processLine]
  rw [if_pos ⟨hds, h1⟩]

/-- On the first non-header line, the loop behaves as if data had already
started. -/
theorem processLine_start {line : List Char} (hh : isHeaderLine line = false)
    (med all : List ℚ) (pol : List PolarSample) :
    processLine ⟨false, med, all, pol⟩ line = processLine ⟨true, med, all, pol⟩ line := by
  have hor : ¬(startsWithHash (jsTrim line) = true ∨ (jsTrim line).length = 0) := by
    intro hcase
    rcases hcase with h3 | h3
    · simp only [isHeaderLine, h3, Bool.true_or] at hh
      exact Bool.noConfusion hh
    · have h4 : jsTrim line = [] := by
        cases hjs : jsTrim line
        · rfl
        · rw [hjs] at h3
          exact absurd h3 (by simp)
      simp only [isHeaderLine, h4] at hh
      simp [startsWithHash] at hh
  have hA : ¬ skipsLine ⟨false, med, all, pol⟩ (jsTrim line) := fun h => hor h.2
  have hB : ¬ skipsLine ⟨true, med, all, pol⟩ (jsTrim line) := fun h => by simpa using h.1
  simp only [processLine]
  rw [if_neg hA, if_neg hB]

/-- After data start, one loop iteration appends exactly the per-line
contributions of the three output sequences. -/
theorem processLine_data {st : ParseState} (hds : st.dataStarted = true) (line : List Char) :
    processLine st line =
      ⟨true, st.sqmValuesForMedian ++ (lineHighMag line).toList,
        st.allSqmValues ++ (lineMag line).toList,
        st.polarData ++ (linePolar line).toList⟩ := by
  obtain ⟨d, med, all, pol⟩ := st
  subst hds
  have hskip : ¬ skipsLine ⟨true, med, all, pol⟩ (jsTrim line) := fun h => by
    simpa [skipsLine] using h.1
  simp only [processLine, lineMag, linePolar, lineHighMag]
  rw [if_neg hskip]
  by_cases h0 : jsTrim line = []
  · simp [h0]
  · have h0l : ¬((jsTrim line).length = 0) := by simpa [List.length_eq_zero] using h0
    by_cases h9 : 9 ≤ (jsFields line).length
    · simp only [if_neg h0l, if_pos h9]
      cases hm : parseFloat ((jsFields line)[5]?.getD []) with
      | none => simp
      | some m =>
        by_cases hc1 : polarOk ((jsFields line)[2]?.getD [])
            (parseFloat ((jsFields line)[7]?.getD []))
            (parseFloat ((jsFields line)[8]?.getD []))
        · by_cases hc2 : okGt (parseFloat ((jsFields line)[7]?.getD [])) 45 = true
          · simp [hc1, hc2]
          · simp [hc1, hc2]
        · by_cases hc2 : okGt (parseFloat ((jsFields line)[7]?.getD [])) 45 = true
          · simp [hc1, hc2]
          · simp [hc1, hc2]
    · simp only [if_neg h0l, if_neg h9]
      simp

/-- After data start, the rest of the loop appends the per-line contributions
of all remaining lines. -/
theorem foldl_processLine_data (lines : List (List Char)) :
    ∀ (med all : List ℚ) (pol : List PolarSample),
      lines.foldl processLine ⟨true, med, all, pol⟩ =
        ⟨true, med ++ lines.filterMap lineHighMag, all ++ lines.filterMap lineMag,
          pol ++ lines.filterMap linePolar⟩ := by
  induction lines with
  | nil => intro med all pol; simp
  | cons l ls ih =>
    intro med all pol
    rw [List.foldl_cons, processLine_data rfl, ih]
    simp [filterMap_cons_toList, List.append_assoc]

/-- The whole loop: drop the leading header block, then accumulate the
per-line contributions of the data portion. -/
theorem foldl_processLine_init (lines : List (List Char)) :
    lines.foldl processLine ⟨false, [], [], []⟩ =
      ⟨!(lines.dropWhile isHeaderLine).isEmpty,
       (lines.dropWhile isHeaderLine).filterMap lineHighMag,
       (lines.dropWhile isHeaderLine).filterMap lineMag,
       (lines.dropWhile isHeaderLine).filterMap linePolar⟩ := by
  induction lines with
  | nil => simp
  | cons l ls ih =>
    cases hh : isHeaderLine l with
    | true =>
      rw [List.foldl_cons, processLine_header rfl hh, ih, List.dropWhile_cons_of_pos hh]
    | false =>
      rw [List.foldl_cons, processLine_start hh, processLine_data rfl,
        foldl_processLine_data, List.dropWhile_cons_of_neg (by simp [hh])]
      simp [filterMap_cons_toList]

/-- The final parse state, characterised by the data portion of the lines. -/
theorem parseSqmState_eq (textData : List Char) :
    parseSqmState textData =
      ⟨!((splitLines textData).dropWhile isHeaderLine).isEmpty,
       ((splitLines textData).dropWhile isHeaderLine).filterMap lineHighMag,
       ((splitLines textData).dropWhile isHeaderLine).filterMap lineMag,
       ((splitLines textData).dropWhile isHeaderLine).filterMap linePolar⟩ := by
  rw [parseSqmState, foldl_processLine_init]

/-- allSqmValues of the processed result, characterised per line. -/
theorem parseSqm_allSqmValues (textData : List Char) :
    (parseSqm textData).allSqmValues =
      ((splitLines textData).dropWhile isHeaderLine).filterMap lineMag := by
  rw [parseSqm, parseSqmState_eq]

/-- polarData of the processed result, characterised per line. -/
theorem parseSqm_polarData (textData : List Char) :
    (parseSqm textData).polarData =
      ((splitLines textData).dropWhile isHeaderLine).filterMap linePolar := by
  rw [parseSqm, parseSqmState_eq]

/-- medianSqm of the processed result, characterised by the high-altitude
magnitudes of the data portion. -/
theorem parseSqm_medianSqm (textData : List Char) :
    (parseSqm textData).medianSqm =
      if 0 < (highAltMags textData).length then calculateMedian (highAltMags textData)
      else none := by
  rw [parseSqm, parseSqmState_eq, highAltMags]

/-- parseFloat through a decided syntactic phase. -/
theorem parseFloat_eq_of_parts {s : List Char} {f : FloatSyntax}
    (h : parseFloatSyntax s = some f) : parseFloat s = some (floatValue f) := by
  simp [parseFloat, h]

/-- parseFloat is NaN exactly when the syntactic phase recognises nothing. -/
theorem parseFloat_eq_none {s : List Char} (h : parseFloatSyntax s = none) :
    parseFloat s = none := by
  simp [parseFloat, h]

/-- The range test on a parsed value. -/
theorem okRange_some_iff {a lo hi : ℚ} : okRange (some a) lo hi = true ↔ lo ≤ a ∧ a ≤ hi := by
  simp [okRange]

/-- The strict comparison test on a parsed value. -/
theorem okGt_some_iff {a b : ℚ} : okGt (some a) b = true ↔ b < a := by
  simp [okGt]

/-- The value of the literal 20.5. -/
theorem floatValue_205 : floatValue ⟨false, ['2', '0'], ['5'], false, []⟩ = 41 / 2 := by
  norm_num [floatValue, (by decide : natOfDigits ['2', '0'] = 20),
    (by decide : natOfDigits ['5'] = 5), (by decide : natOfDigits ([] : List Char) = 0)]

/-- The value of the literal 30. -/
theorem floatValue_30 : floatValue ⟨false, ['3', '0'], [], false, []⟩ = 30 := by
  norm_num [floatValue, (by decide : natOfDigits ['3', '0'] = 30),
    (by decide : natOfDigits ([] : List Char) = 0)]

/-- The value of the literal 50. -/
theorem floatValue_50 : floatValue ⟨false, ['5', '0'], [], false, []⟩ = 50 := by
  norm_num [floatValue, (by decide : natOfDigits ['5', '0'] = 50),
    (by decide : natOfDigits ([] : List Char) = 0)]

/-- The value of the literal 100. -/
theorem floatValue_100 : floatValue ⟨false, ['1', '0', '0'], [], false, []⟩ = 100 := by
  norm_num [floatValue, (by decide : natOfDigits ['1', '0', '0'] = 100),
    (by decide : natOfDigits ([] : List Char) = 0)]

/-- The value of the literal 400. -/
theorem floatValue_400 : floatValue ⟨false, ['4', '0', '0'], [], false, []⟩ = 400 := by
  norm_num [floatValue, (by decide : natOfDigits ['4', '0', '0'] = 400),
    (by decide : natOfDigits ([] : List Char) = 0)]

/-- Evaluation of the three per-line views on a data line whose relevant
columns are known. -/
theorem lineViews_eval (line : List Char) (tcol magcol altcol azicol : List Char)
    (h0 : ¬((jsTrim line).length = 0))
    (h9 : 9 ≤ (jsFields line).length)
    (h2 : (jsFields line)[2]?.getD [] = tcol)
    (h5 : (jsFields line)[5]?.getD [] = magcol)
    (h7 : (jsFields line)[7]?.getD [] = altcol)
    (h8 : (jsFields line)[8]?.getD [] = azicol) :
    lineMag line = parseFloat magcol ∧
    linePolar line =
      (match parseFloat magcol with
        | none => none
        | some m =>
          if polarOk tcol (parseFloat altcol) (parseFloat azicol) then
            some ⟨tcol, m, (parseFloat altcol).getD 0, (parseFloat azicol).getD 0⟩
          else none) ∧
    lineHighMag line =
      (match parseFloat magcol with
        | none => none
        | some m => if okGt (parseFloat altcol) 45 = true then some m else none) := by
  refine ⟨?_, ?_, ?_⟩
  · simp only [lineMag, h5]
    rw [if_neg h0, if_pos h9]
  · simp only [linePolar, h2, h5, h7, h8]
    rw [if_neg h0, if_pos h9]
  · simp only [lineHighMag, h5, h7]
    rw [if_neg h0, if_pos h9]

/-- The per-line views on the altitude-30 example line. -/
theorem lineViews_exAlt30 :
    lineMag exAlt30 = some (41 / 2) ∧
    linePolar exAlt30 = some ⟨"12:00:00".data, 41 / 2, 30, 100⟩ ∧
    lineHighMag exAlt30 = none := by
  have hv := lineViews_eval exAlt30 "12:00:00".data "20.5".data "30".data "100".data
    (by decide) (by decide) (by decide) (by decide) (by decide) (by decide)
  have hmag := parseFloat_eq_of_parts
    (by decide : parseFloatSyntax "20.5".data = some ⟨false, ['2', '0'], ['5'], false, []⟩)
  have halt := parseFloat_eq_of_parts
    (by decide : parseFloatSyntax "30".data = some ⟨false, ['3', '0'], [], false, []⟩)
  have hazi := parseFloat_eq_of_parts
    (by decide : parseFloatSyntax "100".data = some ⟨false, ['1', '0', '0'], [], false, []⟩)
  rw [floatValue_205] at hmag
  rw [floatValue_30] at halt
  rw [floatValue_100] at hazi
  refine ⟨?_, ?_, ?_⟩
  · rw [hv.1, hmag]
  · rw [hv.2.1, hmag, halt, hazi]
    have hok : polarOk "12:00:00".data (some 30) (some 100) :=
      ⟨by decide, by decide, by decide⟩
    simp [hok]
  · rw [hv.2.2, hmag, halt]
    have hng : ¬(okGt (some (30 : ℚ)) 45 = true) := by decide
    simp [hng]

/-- The per-line views on the all-alphabetic example line: everything is
dropped because the magnitude field does not parse. -/
theorem lineViews_exNoMag :
    lineMag exNoMag = none ∧ linePolar exNoMag = none ∧ lineHighMag exNoMag = none := by
  have hv := lineViews_eval exNoMag "r".data "u".data "w".data "x".data
    (by decide) (by decide) (by decide) (by decide) (by decide) (by decide)
  have hmag := parseFloat_eq_none (by decide : parseFloatSyntax "u".data = none)
  refine ⟨?_, ?_, ?_⟩
  · rw [hv.1, hmag]
  · rw [hv.2.1, hmag]
  · rw [hv.2.2, hmag]

/-- The per-line views on the 9-field comment line: it is processed as a data
line, contributing to all three sequences. -/
theorem lineViews_exCommentLine :
    lineMag exCommentLine = some (41 / 2) ∧
    linePolar exCommentLine = some ⟨"c".data, 41 / 2, 50, 100⟩ ∧
    lineHighMag exCommentLine = some (41 / 2) := by
  have hv := lineViews_eval exCommentLine "c".data "20.5".data "50".data "100".data
    (by decide) (by decide) (by decide) (by decide) (by decide) (by decide)
  have hmag := parseFloat_eq_of_parts
    (by decide : parseFloatSyntax "20.5".data = some ⟨false, ['2', '0'], ['5'], false, []⟩)
  have halt := parseFloat_eq_of_parts
    (by decide : parseFloatSyntax "50".data = some ⟨false, ['5', '0'], [], false, []⟩)
  have hazi := parseFloat_eq_of_parts
    (by decide : parseFloatSyntax "100".data = some ⟨false, ['1', '0', '0'], [], false, []⟩)
  rw [floatValue_205] at hmag
  rw [floatValue_50] at halt
  rw [floatValue_100] at hazi
  refine ⟨?_, ?_, ?_⟩
  · rw [hv.1, hmag]
  · rw [hv.2.1, hmag, halt, hazi]
    have hok : polarOk "c".data (some 50) (some 100) := ⟨by decide, by decide, by decide⟩
    simp [hok]
  · rw [hv.2.2, hmag, halt]
    have hg : okGt (some (50 : ℚ)) 45 = true := by decide
    simp [hg]

/-- The per-line views on the azimuth-400 example line: the magnitude and the
high-altitude buffer receive the value, the polar samples do not. -/
theorem lineViews_exAzi400 :
    lineMag exAzi400 = some (41 / 2) ∧
    linePolar exAzi400 = none ∧
    lineHighMag exAzi400 = some (41 / 2) := by
  have hv := lineViews_eval exAzi400 "12:00:00".data "20.5".data "50".data "400".data
    (by decide) (by decide) (by decide) (by decide) (by decide) (by decide)
  have hmag := parseFloat_eq_of_parts
    (by decide : parseFloatSyntax "20.5".data = some ⟨false, ['2', '0'], ['5'], false, []⟩)
  have halt := parseFloat_eq_of_parts
    (by decide : parseFloatSyntax "50".data = some ⟨false, ['5', '0'], [], false, []⟩)
  have hazi := parseFloat_eq_of_parts
    (by decide : parseFloatSyntax "400".data = some ⟨false, ['4', '0', '0'], [], false, []⟩)
  rw [floatValue_205] at hmag
  rw [floatValue_50] at halt
  rw [floatValue_400] at hazi
  refine ⟨?_, ?_, ?_⟩
  · rw [hv.1, hmag]
  · rw [hv.2.1, hmag, halt, hazi]
    have hng : ¬ polarOk "12:00:00".data (some 50) (some 400) := fun h => by
      have h2 := h.2.2
      rw [okRange_some_iff] at h2
      exact absurd h2.2 (by decide)
    simp [hng]
  · rw [hv.2.2, hmag, halt]
    have hg : okGt (some (50 : ℚ)) 45 = true := by decide
    simp [hg]

/-- On an already-sorted list, calculateMedian picks the middle element or
the mean of the two middle ones directly. -/
theorem calculateMedian_sorted {l : List ℚ} (hs : List.Sorted (· ≤ ·) l) (hne : l ≠ []) :
    calculateMedian l =
      if l.length % 2 = 0 then
        some ((l.getD (l.length / 2 - 1) 0 + l.getD (l.length / 2) 0) / 2)
      else some (l.getD (l.length / 2) 0) := by
  simp only [calculateMedian, List.mergeSort_eq_self hs]
  rw [if_neg (by simpa [List.length_eq_zero] using hne)]

/-- calculateMedian answers on every non-empty input. -/
theorem calculateMedian_isSome {l : List ℚ} (hne : l ≠ []) :
    (calculateMedian l).isSome = true := by
  simp only [calculateMedian]
  rw [if_neg (by simpa [List.length_eq_zero] using hne)]
  split <;> rfl

/-- The median of a one-element list is its element. -/
theorem calculateMedian_single (a : ℚ) : calculateMedian [a] = some a := by
  rw [calculateMedian_sorted (by simp) (by simp)]
  norm_num

/-- A pointwise implication between option-valued views lifts to a sublist
relation between the filterMap results. -/
theorem filterMap_sublist_of_forall {α β : Type} (f g : α → Option β)
    (hfg : ∀ a b, f a = some b → g a = some b) (l : List α) :
    (l.filterMap f).Sublist (l.filterMap g) := by
  induction l with
  | nil => simp
  | cons a l ih =>
    rw [filterMap_cons_toList, filterMap_cons_toList]
    refine List.Sublist.append ?_ ih
    cases hfa : f a with
    | none => simp
    | some b => rw [hfg a b hfa]

/-- A line contributing a polar sample contributes that magnitude to
allSqmValues. -/
theorem linePolar_mag {line : List Char} {s : PolarSample} (h : linePolar line = some s) :
    lineMag line = some s.mag := by
  by_cases h0 : (jsTrim line).length = 0
  · rw [linePolar, if_pos h0] at h
    exact absurd h (by simp)
  · by_cases h9 : 9 ≤ (jsFields line).length
    · rw [linePolar, if_neg h0] at h
      simp only [if_pos h9] at h
      rw [lineMag, if_neg h0]
      simp only [if_pos h9]
      cases hm : parseFloat ((jsFields line)[5]?.getD []) with
      | none => rw [hm] at h; exact absurd h (by simp)
      | some m =>
        rw [hm] at h
        simp only at h
        by_cases hc : polarOk ((jsFields line)[2]?.getD [])
            (parseFloat ((jsFields line)[7]?.getD []))
            (parseFloat ((jsFields line)[8]?.getD []))
        · rw [if_pos hc] at h
          obtain rfl : _ = s := Option.some.inj h
          rfl
        · rw [if_neg hc] at h
          exact absurd h (by simp)
    · rw [linePolar, if_neg h0] at h
      simp only [if_neg h9] at h
      exact absurd h (by simp)

/-- A line contributing to the high-altitude buffer contributes that
magnitude to allSqmValues. -/
theorem lineHighMag_mag {line : List Char} {q : ℚ} (h : lineHighMag line = some q) :
    lineMag line = some q := by
  by_cases h0 : (jsTrim line).length = 0
  · rw [lineHighMag, if_pos h0] at h
    exact absurd h (by simp)
  · by_cases h9 : 9 ≤ (jsFields line).length
    · rw [lineHighMag, if_neg h0] at h
      simp only [if_pos h9] at h
      rw [lineMag, if_neg h0]
      simp only [if_pos h9]
      cases hm : parseFloat ((jsFields line)[5]?.getD []) with
      | none => rw [hm] at h; exact absurd h (by simp)
      | some m =>
        rw [hm] at h
        simp only at h
        by_cases hg : okGt (parseFloat ((jsFields line)[7]?.getD [])) 45 = true
        · rw [if_pos hg] at h
          exact h ▸ rfl
        · rw [if_neg hg] at h
          exact absurd h (by simp)
    · rw [lineHighMag, if_neg h0] at h
      simp only [if_neg h9] at h
      exact absurd h (by simp)

/-- Full evaluation of the comment-after-data-start example: the 9-field
comment line is processed as data, its magnitude 20.5 reaching every output
(the first line contributes nothing, its magnitude field being alphabetic). -/
theorem parseSqm_exCommentData :
    parseSqm exCommentData =
      ⟨some (41 / 2), [41 / 2], [⟨"c".data, 41 / 2, 50, 100⟩]⟩ := by
  have hdw : (splitLines exCommentData).dropWhile isHeaderLine = [exNoMag, exCommentLine] := by
    decide
  have hst : parseSqmState exCommentData =
      ⟨true, [41 / 2], [41 / 2], [⟨"c".data, 41 / 2, 50, 100⟩]⟩ := by
    rw [parseSqmState_eq, hdw]
    simp [filterMap_cons_toList, lineViews_exNoMag.1, lineViews_exNoMag.2.1,
      lineViews_exNoMag.2.2, lineViews_exCommentLine.1, lineViews_exCommentLine.2.1,
      lineViews_exCommentLine.2.2]
  rw [parseSqm, hst]
  simp [calculateMedian_single]

/-- C3: for every parsed file, medianMagnitude equals the median of exactly
those parsed magnitudes whose line has an altitude that parses and satisfies
altitude > 45, and medianMagnitude is null if and only if that subset is
empty; in particular, a line with altitude 30 contributes its magnitude to
allMagnitudes (and its sample to polarSamples) but not to the median
computation. -/
theorem medianSqm_from_high_altitude_subset (textData : List Char) :
    ((parseSqm textData).medianSqm =
      if highAltMags textData = [] then none else calculateMedian (highAltMags textData)) ∧
    ((parseSqm textData).medianSqm = none ↔ highAltMags textData = []) ∧
    (parseSqm exAlt30).allSqmValues = [41 / 2] ∧
    (parseSqm exAlt30).medianSqm = none ∧
    (parseSqm exAlt30).polarData = [⟨"12:00:00".data, 41 / 2, 30, 100⟩] := by
  have hdw30 : (splitLines exAlt30).dropWhile isHeaderLine = [exAlt30] := by decide
  have hha30 : highAltMags exAlt30 = [] := by
    rw [highAltMags, hdw30, filterMap_cons_toList, List.filterMap_nil,
      lineViews_exAlt30.2.2]
    rfl
  have h1 : (parseSqm textData).medianSqm =
      if highAltMags textData = [] then none else calculateMedian (highAltMags textData) := by
    rw [parseSqm_medianSqm]
    by_cases hb : highAltMags textData = []
    · rw [if_pos hb, hb]
      simp
    · rw [if_neg hb, if_pos (List.length_pos.mpr hb)]
  refine ⟨h1, ?_, ?_, ?_, ?_⟩
  · rw [h1]
    by_cases hb : highAltMags textData = []
    · simp [hb]
    · rw [if_neg hb]
      constructor
      · intro h
        exact absurd h (Option.isSome_iff_ne_none.mp (calculateMedian_isSome hb))
      · intro h
        exact absurd h hb
  · rw [parseSqm_allSqmValues, hdw30, filterMap_cons_toList, List.filterMap_nil,
      lineViews_exAlt30.1]
    rfl
  · rw [parseSqm_medianSqm, hha30]
    simp
  · rw [parseSqm_polarData, hdw30, filterMap_cons_toList, List.filterMap_nil,
      lineViews_exAlt30.2.1]
    rfl

/-- C4: median of the empty sequence is null; on a non-empty ascending
sequence it returns the exact middle element for an odd count and the mean
of the two middle elements for an even count; median of 1,2,3 is 2 and of
1,2,3,4 is 2.5. -/
theorem calculateMedian_contract (l : List ℚ) (hs : List.Sorted (· ≤ ·) l) :
    calculateMedian [] = none ∧
    (l ≠ [] → l.length % 2 = 1 → calculateMedian l = some (l.getD (l.length / 2) 0)) ∧
    (l ≠ [] → l.length % 2 = 0 →
      calculateMedian l = some ((l.getD (l.length / 2 - 1) 0 + l.getD (l.length / 2) 0) / 2)) ∧
    calculateMedian [1, 2, 3] = some 2 ∧
    calculateMedian [1, 2, 3, 4] = some (5 / 2) := by
  refine ⟨rfl, ?_, ?_, ?_, ?_⟩
  · intro hne hodd
    rw [calculateMedian_sorted hs hne, if_neg (by omega)]
  · intro hne heven
    rw [calculateMedian_sorted hs hne, if_pos heven]
  · rw [calculateMedian_sorted (by norm_num [List.sorted_cons]) (by simp)]
    norm_num
  · rw [calculateMedian_sorted (by norm_num [List.sorted_cons]) (by simp)]
    norm_num

/-- Witness for C4: the odd and even cases applied at the concrete sorted
inputs 1,2,3 and 1,2,3,4. -/
theorem calculateMedian_contract_witness :
    calculateMedian [(1 : ℚ), 2, 3] =
      some ([(1 : ℚ), 2, 3].getD ([(1 : ℚ), 2, 3].length / 2) 0) ∧
    calculateMedian [(1 : ℚ), 2, 3, 4] =
      some (([(1 : ℚ), 2, 3, 4].getD ([(1 : ℚ), 2, 3, 4].length / 2 - 1) 0 +
        [(1 : ℚ), 2, 3, 4].getD ([(1 : ℚ), 2, 3, 4].length / 2) 0) / 2) :=
  ⟨(calculateMedian_contract [(1 : ℚ), 2, 3]
      (by norm_num [List.sorted_cons])).2.1 (by simp) (by norm_num),
   (calculateMedian_contract [(1 : ℚ), 2, 3, 4]
      (by norm_num [List.sorted_cons])).2.2.1 (by simp) (by norm_num)⟩

/-- C8: on input consisting only of comment and blank lines, parse returns
the well-formed empty result (null median, no magnitudes, no samples);
being a total function of the text, it raises nothing on any input. -/
theorem parseSqm_wellformed_on_junk (textData : List Char)
    (h : ∀ line ∈ splitLines textData, isHeaderLine line = true) :
    parseSqm textData = ⟨none, [], []⟩ := by
  have hd : (splitLines textData).dropWhile isHeaderLine = [] :=
    List.dropWhile_eq_nil_iff.mpr h
  rw [parseSqm, parseSqmState_eq, hd]
  simp

/-- Witness for C8 at a concrete comment-and-blank-only input. -/
theorem parseSqm_wellformed_on_junk_witness :
    parseSqm "# a\n\n# b".data = ⟨none, [], []⟩ :=
  parseSqm_wellformed_on_junk _ (by decide)

/-- C9: the parse pipeline is deterministic; repeating fetchAndParseSqm with
the same source identifier and the same fetched text yields a structurally
equal result (the second call is answered by the cache the first call
populated), and each component coincides. -/
theorem fetchAndParseSqm_deterministic (cache : SqmCache) (url textData : List Char) :
    (fetchAndParseSqm (fetchAndParseSqm cache url textData).2 url textData).1 =
      (fetchAndParseSqm cache url textData).1 ∧
    ((fetchAndParseSqm (fetchAndParseSqm cache url textData).2 url textData).1).medianSqm =
      ((fetchAndParseSqm cache url textData).1).medianSqm ∧
    ((fetchAndParseSqm (fetchAndParseSqm cache url textData).2 url textData).1).allSqmValues =
      ((fetchAndParseSqm cache url textData).1).allSqmValues ∧
    ((fetchAndParseSqm (fetchAndParseSqm cache url textData).2 url textData).1).polarData =
      ((fetchAndParseSqm cache url textData).1).polarData := by
  have h1 : (fetchAndParseSqm (fetchAndParseSqm cache url textData).2 url textData).1 =
      (fetchAndParseSqm cache url textData).1 := by
    cases hcu : cache url with
    | some r => simp [fetchAndParseSqm, hcu]
    | none => simp [fetchAndParseSqm, hcu, cacheInsert]
  exact ⟨h1, by rw [h1], by rw [h1], by rw [h1]⟩

/-- C10: the polar magnitudes and the high-altitude buffer are order-
preserving subsequences of allSqmValues; polarData is never longer than
allSqmValues, and a non-null median forces a non-empty allSqmValues. -/
theorem outputs_sublist_invariant (textData : List Char) :
    ((parseSqmState textData).polarData.map PolarSample.mag).Sublist
      (parseSqmState textData).allSqmValues ∧
    (parseSqmState textData).sqmValuesForMedian.Sublist
      (parseSqmState textData).allSqmValues ∧
    (parseSqm textData).polarData.length ≤ (parseSqm textData).allSqmValues.length ∧
    ((parseSqm textData).medianSqm ≠ none → (parseSqm textData).allSqmValues ≠ []) := by
  have hpol : ((parseSqmState textData).polarData.map PolarSample.mag).Sublist
      (parseSqmState textData).allSqmValues := by
    rw [parseSqmState_eq]
    simp only
    rw [List.map_filterMap]
    refine filterMap_sublist_of_forall _ _ ?_ _
    intro a b hab
    rw [Option.map_eq_some'] at hab
    obtain ⟨s, hs, hb⟩ := hab
    rw [linePolar_mag hs, hb]
  have hmed : (parseSqmState textData).sqmValuesForMedian.Sublist
      (parseSqmState textData).allSqmValues := by
    rw [parseSqmState_eq]
    exact filterMap_sublist_of_forall _ _ (fun a b h => lineHighMag_mag h) _
  refine ⟨hpol, hmed, ?_, ?_⟩
  · have hl := hpol.length_le
    simpa [parseSqm] using hl
  · intro hmm hall
    have hall2 : (parseSqmState textData).allSqmValues = [] := by
      simpa [parseSqm] using hall
    have hmed2 : (parseSqmState textData).sqmValuesForMedian = [] := by
      have hl := hmed.length_le
      rw [hall2] at hl
      simpa [List.length_eq_zero] using hl
    have hb : highAltMags textData = [] := by
      rw [parseSqmState_eq] at hmed2
      exact hmed2
    rw [parseSqm_medianSqm, hb] at hmm
    simp at hmm

/-- Witness for C10 at a concrete input whose median is non-null. -/
theorem outputs_sublist_invariant_witness :
    (parseSqm exCommentData).allSqmValues ≠ [] :=
  (outputs_sublist_invariant exCommentData).2.2.2
    (by rw [parseSqm_exCommentData]; simp)

/-- After data start, an iteration leaves the state unchanged exactly when
the line contributes no magnitude. -/
theorem processLine_eq_self_iff {line : List Char} (med all : List ℚ)
    (pol : List PolarSample) :
    processLine ⟨true, med, all, pol⟩ line = ⟨true, med, all, pol⟩ ↔
      lineMag line = none := by
  rw [processLine_data rfl]
  constructor
  · intro heq
    have h3 := congrArg ParseState.allSqmValues heq
    simp only at h3
    cases hlm : lineMag line with
    | none => rfl
    | some q =>
      rw [hlm] at h3
      simp at h3
  · intro hlm
    have hhm : lineHighMag line = none := by
      cases hh : lineHighMag line with
      | none => rfl
      | some q => rw [lineHighMag_mag hh] at hlm; exact Option.noConfusion hlm
    have hpl : linePolar line = none := by
      cases hh : linePolar line with
      | none => rfl
      | some s => rw [linePolar_mag hh] at hlm; exact Option.noConfusion hlm
    rw [hlm, hhm, hpl]
    simp

/-- On a line with a non-empty trimmed form, the contributed magnitude is
none exactly for a short split or an unparsable magnitude field. -/
theorem lineMag_eq_none_iff {line : List Char} (h0 : ¬((jsTrim line).length = 0)) :
    lineMag line = none ↔
      ((jsFields line).length < 9 ∨ parseFloat ((jsFields line)[5]?.getD []) = none) := by
  rw [lineMag, if_neg h0]
  by_cases h9 : 9 ≤ (jsFields line).length
  · have h9n : ¬((jsFields line).length < 9) := by omega
    simp [if_pos h9, h9n]
  · have h9y : (jsFields line).length < 9 := by omega
    simp [if_neg h9, h9y]

/-- A line with at least 9 fields has a non-empty trimmed form. -/
theorem fields_nonempty_trim {line : List Char} (h9 : 9 ≤ (jsFields line).length) :
    ¬((jsTrim line).length = 0) := by
  intro h0
  have ht : jsTrim line = [] := List.length_eq_zero.mp h0
  rw [jsFields, ht] at h9
  simp [splitOnPred] at h9

/-- Counterexample to C1 as stated: after data start, a comment line with 9
whitespace-separated fields and a numeric field 5 contributes its magnitude
20.5 to allMagnitudes and to the median (the only other line of the input
contributes nothing, its magnitude field being alphabetic). -/
theorem comment_after_data_start_contributes :
    startsWithHash (jsTrim exCommentLine) = true ∧
    (parseSqm exCommentData).allSqmValues = [41 / 2] ∧
    (parseSqm exCommentData).medianSqm = some (41 / 2) ∧
    (parseSqm exNoMag).allSqmValues = [] := by
  refine ⟨by decide, ?_, ?_, ?_⟩
  · rw [parseSqm_exCommentData]
  · rw [parseSqm_exCommentData]
  · rw [parseSqm_allSqmValues]
    have hdw : (splitLines exNoMag).dropWhile isHeaderLine = [exNoMag] := by decide
    rw [hdw, filterMap_cons_toList, List.filterMap_nil, lineViews_exNoMag.1]
    rfl

/-- C1 amended: a line whose trimmed form starts with a hash contributes
nothing when it occurs before data start; after data start it contributes
nothing if and only if it splits into fewer than 9 fields or its magnitude
field does not parse (otherwise it is processed as an ordinary data line). -/
theorem hash_line_contribution_iff (st : ParseState) (line : List Char)
    (hhash : startsWithHash (jsTrim line) = true) :
    (st.dataStarted = false → processLine st line = st) ∧
    (st.dataStarted = true →
      (processLine st line = st ↔
        ((jsFields line).length < 9 ∨ parseFloat ((jsFields line)[5]?.getD []) = none))) := by
  have h0 : ¬((jsTrim line).length = 0) := by
    intro hl
    have ht : jsTrim line = [] := List.length_eq_zero.mp hl
    rw [ht] at hhash
    simp [startsWithHash] at hhash
  obtain ⟨d, med, all, pol⟩ := st
  refine ⟨?_, ?_⟩
  · intro hds
    exact processLine_header hds (by simp [isHeaderLine, hhash])
  · intro hds
    subst hds
    rw [processLine_eq_self_iff, lineMag_eq_none_iff h0]

/-- Witness for the amended C1 at a concrete comment line and concrete
states on both sides of data start. -/
theorem hash_line_contribution_iff_witness :
    processLine ⟨false, [], [], []⟩ "# hi".data = ⟨false, [], [], []⟩ ∧
    (processLine ⟨true, [], [], []⟩ "# hi".data = ⟨true, [], [], []⟩ ↔
      ((jsFields "# hi".data).length < 9 ∨
        parseFloat ((jsFields "# hi".data)[5]?.getD []) = none)) :=
  ⟨(hash_line_contribution_iff ⟨false, [], [], []⟩ "# hi".data (by decide)).1 rfl,
   (hash_line_contribution_iff ⟨true, [], [], []⟩ "# hi".data (by decide)).2 rfl⟩

/-- C2: after data start, a line splitting into fewer than 9 fields
contributes to no output sequence, and so does a line with at least 9 fields
whose magnitude field does not parse. -/
theorem short_or_unparsed_line_contributes_nothing (st : ParseState) (line : List Char)
    (hds : st.dataStarted = true) :
    ((jsFields line).length < 9 → processLine st line = st) ∧
    (9 ≤ (jsFields line).length → parseFloat ((jsFields line)[5]?.getD []) = none →
      processLine st line = st) := by
  obtain ⟨d, med, all, pol⟩ := st
  subst hds
  constructor
  · intro h9
    rw [processLine_eq_self_iff]
    by_cases h0 : (jsTrim line).length = 0
    · rw [lineMag, if_pos h0]
    · rw [lineMag_eq_none_iff h0]
      exact Or.inl h9
  · intro h9 hpf
    rw [processLine_eq_self_iff]
    rw [lineMag_eq_none_iff (fields_nonempty_trim h9)]
    exact Or.inr hpf

/-- Witness for C2: an 8-field line (3 fields here) and a 9-field line with
an alphabetic magnitude field leave a concrete post-data-start state
unchanged. -/
theorem short_or_unparsed_line_witness :
    processLine ⟨true, [], [], []⟩ "1 2 3".data = ⟨true, [], [], []⟩ ∧
    processLine ⟨true, [], [], []⟩ exNoMag = ⟨true, [], [], []⟩ :=
  ⟨(short_or_unparsed_line_contributes_nothing ⟨true, [], [], []⟩ "1 2 3".data rfl).1
      (by decide),
   (short_or_unparsed_line_contributes_nothing ⟨true, [], [], []⟩ exNoMag rfl).2
      (by decide) (parseFloat_eq_none (by decide))⟩

/-- The polar admission test, spelled with parsed values and ranges. -/
theorem polarOk_iff {time : List Char} {alt azi : Option ℚ} :
    polarOk time alt azi ↔
      (time ≠ [] ∧ (∃ a, alt = some a ∧ 0 ≤ a ∧ a ≤ 90) ∧
        (∃ z, azi = some z ∧ 0 ≤ z ∧ z ≤ 360)) := by
  unfold polarOk
  constructor
  · rintro ⟨ht, h1, h2⟩
    refine ⟨ht, ?_, ?_⟩
    · cases alt with
      | none => exact absurd h1 (by simp [okRange])
      | some a =>
        obtain ⟨ha1, ha2⟩ := okRange_some_iff.mp h1
        exact ⟨a, rfl, ha1, ha2⟩
    · cases azi with
      | none => exact absurd h2 (by simp [okRange])
      | some z =>
        obtain ⟨hz1, hz2⟩ := okRange_some_iff.mp h2
        exact ⟨z, rfl, hz1, hz2⟩
  · rintro ⟨ht, ⟨a, ha, ha1, ha2⟩, ⟨z, hz, hz1, hz2⟩⟩
    subst ha
    subst hz
    exact ⟨ht, okRange_some_iff.mpr ⟨ha1, ha2⟩, okRange_some_iff.mpr ⟨hz1, hz2⟩⟩

/-- C7: on a data line whose magnitude parses, the magnitude is always
appended to allSqmValues; the sample is appended to polarData when the
admission test holds and polarData is left unchanged otherwise; and the
admission test holds if and only if the time field is non-empty, the
altitude parses into the closed range 0..90 and the azimuth parses into the
closed range 0..360. -/
theorem polarData_admission_iff (st : ParseState) (line : List Char) (m : ℚ)
    (hds : st.dataStarted = true)
    (h9 : 9 ≤ (jsFields line).length)
    (hm : parseFloat ((jsFields line)[5]?.getD []) = some m) :
    (processLine st line).allSqmValues = st.allSqmValues ++ [m] ∧
    (processLine st line).polarData =
      (if polarOk ((jsFields line)[2]?.getD []) (parseFloat ((jsFields line)[7]?.getD []))
          (parseFloat ((jsFields line)[8]?.getD [])) then
        st.polarData ++ [⟨(jsFields line)[2]?.getD [], m,
          (parseFloat ((jsFields line)[7]?.getD [])).getD 0,
          (parseFloat ((jsFields line)[8]?.getD [])).getD 0⟩]
      else st.polarData) ∧
    (polarOk ((jsFields line)[2]?.getD []) (parseFloat ((jsFields line)[7]?.getD []))
        (parseFloat ((jsFields line)[8]?.getD [])) ↔
      ((jsFields line)[2]?.getD [] ≠ [] ∧
        (∃ a, parseFloat ((jsFields line)[7]?.getD []) = some a ∧ 0 ≤ a ∧ a ≤ 90) ∧
        (∃ z, parseFloat ((jsFields line)[8]?.getD []) = some z ∧ 0 ≤ z ∧ z ≤ 360))) := by
  have h0 : ¬((jsTrim line).length = 0) := fields_nonempty_trim h9
  have hlm : lineMag line = some m := by
    rw [lineMag, if_neg h0]
    simp only [if_pos h9, hm]
  have hlp : linePolar line =
      (if polarOk ((jsFields line)[2]?.getD []) (parseFloat ((jsFields line)[7]?.getD []))
          (parseFloat ((jsFields line)[8]?.getD [])) then
        some ⟨(jsFields line)[2]?.getD [], m,
          (parseFloat ((jsFields line)[7]?.getD [])).getD 0,
          (parseFloat ((jsFields line)[8]?.getD [])).getD 0⟩
      else none) := by
    rw [linePolar, if_neg h0]
    simp only [if_pos h9, hm]
  refine ⟨?_, ?_, polarOk_iff⟩
  · rw [processLine_data hds, hlm]
    simp
  · rw [processLine_data hds, hlp]
    by_cases hok : polarOk ((jsFields line)[2]?.getD [])
        (parseFloat ((jsFields line)[7]?.getD [])) (parseFloat ((jsFields line)[8]?.getD []))
    · rw [if_pos hok, if_pos hok]
      simp
    · rw [if_neg hok, if_neg hok]
      simp

/-- Witness for C7: on the azimuth-400 line the magnitude 20.5 still enters
allSqmValues while polarData stays empty. -/
theorem polarData_admission_witness :
    (processLine ⟨true, [], [], []⟩ exAzi400).allSqmValues = [] ++ [(41 / 2 : ℚ)] ∧
    (processLine ⟨true, [], [], []⟩ exAzi400).polarData = [] := by
  have h5 : (jsFields exAzi400)[5]?.getD [] = "20.5".data := by decide
  have hm : parseFloat ((jsFields exAzi400)[5]?.getD []) = some (41 / 2) := by
    rw [h5, parseFloat_eq_of_parts (by decide :
      parseFloatSyntax "20.5".data = some ⟨false, ['2', '0'], ['5'], false, []⟩),
      floatValue_205]
  have hts := polarData_admission_iff ⟨true, [], [], []⟩ exAzi400 (41 / 2) rfl (by decide) hm
  refine ⟨hts.1, ?_⟩
  rw [hts.2.1, if_neg]
  intro hok
  rw [hts.2.2] at hok
  obtain ⟨-, -, z, hz, -, hz2⟩ := hok
  have h8 : (jsFields exAzi400)[8]?.getD [] = "400".data := by decide
  rw [h8, parseFloat_eq_of_parts (by decide :
    parseFloatSyntax "400".data = some ⟨false, ['4', '0', '0'], [], false, []⟩),
    floatValue_400] at hz
  obtain rfl := Option.some.inj hz
  exact absurd hz2 (by norm_num)

/-- C5: the caller's array is unchanged by calculateMedianInStore (the sort
acts on the freshly allocated spread copy only), and the returned value is
that of the pure calculateMedian on the argument. -/
theorem calculateMedian_no_mutation (store : List (List ℚ)) (addr : ℕ) :
    ((calculateMedianInStore store addr).2).getD addr [] = store.getD addr [] ∧
    (calculateMedianInStore store addr).1 = calculateMedian (store.getD addr []) := by
  by_cases h0 : (store.getD addr []).length = 0
  · refine ⟨?_, ?_⟩
    · simp only [calculateMedianInStore]
      rw [if_pos h0]
    · simp only [calculateMedianInStore, calculateMedian]
      rw [if_pos h0, if_pos h0]
  · have haddr : addr < store.length := by
      by_contra hge
      push_neg at hge
      have hnone : store[addr]? = none := List.getElem?_eq_none hge
      rw [List.getD_eq_getElem?_getD, hnone] at h0
      simp at h0
    have h1 : (store ++ [store.getD addr []]).getD store.length [] = store.getD addr [] := by
      rw [List.getD_eq_getElem?_getD, List.getElem?_concat_length]
      rfl
    simp only [calculateMedianInStore]
    rw [if_neg h0, h1]
    have h2 : ((store ++ [store.getD addr []]).set store.length
        ((store.getD addr []).mergeSort (fun a b => decide (a ≤ b)))).getD store.length [] =
        (store.getD addr []).mergeSort (fun a b => decide (a ≤ b)) := by
      rw [List.getD_eq_getElem?_getD, List.getElem?_set_self (by simp), Option.getD_some]
    rw [h2]
    refine ⟨?_, ?_⟩
    · have h3 : ((store ++ [store.getD addr []]).set store.length
          ((store.getD addr []).mergeSort (fun a b => decide (a ≤ b)))).getD addr [] =
          store.getD addr [] := by
        rw [List.getD_eq_getElem?_getD, List.getElem?_set_ne (by omega),
          List.getElem?_append_left haddr, ← List.getD_eq_getElem?_getD]
      by_cases hpar : ((store.getD addr []).mergeSort (fun a b => decide (a ≤ b))).length % 2 = 0
      · rw [if_pos hpar]
        exact h3
      · rw [if_neg hpar]
        exact h3
    · rw [calculateMedian, if_neg h0]
      by_cases hpar : ((store.getD addr []).mergeSort (fun a b => decide (a ≤ b))).length % 2 = 0
      · rw [if_pos hpar, if_pos hpar]
      · rw [if_neg hpar, if_neg hpar]

/-- A default-zero read anywhere in the zero histogram is zero. -/
theorem getD_replicate_zero (n k : ℕ) : (List.replicate n (0 : ℕ)).getD k 0 = 0 := by
  rw [List.getD_eq_getElem?_getD, List.getElem?_replicate]
  split <;> rfl

/-- With the default parameters, the histogram has 30 interior buckets and
32 in total. -/
theorem bucketize_default_labels : (round (((22 : ℚ) - 16) / (1 / 5))).toNat + 2 = 32 := by
  norm_num [round_eq]
  decide

/-- C6: with binWidth 0.2 and range 16..22, a value below 16 is counted in
bucket 0, a value at or above 22 in the last bucket 31, a value in the
half-open range 16..22 in the interior bucket floor((v-16)/0.2)+1, with 16
itself landing in the first interior bucket 1; the four-value example
populates buckets 0, 1, 30 and 31. -/
theorem bucketize_assignment (v : ℚ) :
    (v < 16 → bucketize [v] (1 / 5) 16 22 = (List.replicate 32 0).set 0 1) ∧
    (22 ≤ v → bucketize [v] (1 / 5) 16 22 = (List.replicate 32 0).set 31 1) ∧
    (16 ≤ v → v < 22 →
      bucketize [v] (1 / 5) 16 22 =
        (List.replicate 32 0).set (⌊(v - 16) / (1 / 5)⌋ + 1).toNat 1) ∧
    (v = 16 → bucketize [v] (1 / 5) 16 22 = (List.replicate 32 0).set 1 1) ∧
    bucketize [159 / 10, 16, 2199 / 100, 22] (1 / 5) 16 22 =
      ((((List.replicate 32 0).set 0 1).set 1 1).set 30 1).set 31 1 := by
  have h3 : 16 ≤ v → v < 22 →
      bucketize [v] (1 / 5) 16 22 =
        (List.replicate 32 0).set (⌊(v - 16) / (1 / 5)⌋ + 1).toNat 1 := by
    intro ha hb
    have hfl0 : 0 ≤ ⌊(v - 16) / (1 / 5)⌋ :=
      Int.floor_nonneg.mpr (div_nonneg (by linarith) (by norm_num))
    have hmul : (v - 16) / (1 / 5) = 5 * (v - 16) := by ring
    have hfl1 : ⌊(v - 16) / (1 / 5)⌋ < 30 := by
      rw [Int.floor_lt, hmul]
      push_cast
      linarith
    simp only [bucketize, List.foldl_cons, List.foldl_nil, bucketize_default_labels,
      Nat.cast_ofNat]
    rw [if_neg (by linarith : ¬(v < 16)), if_neg (by linarith : ¬((22 : ℚ) ≤ v)),
      if_pos (⟨by omega, by omega⟩ :
        0 < ⌊(v - 16) / (1 / 5)⌋ + 1 ∧ ⌊(v - 16) / (1 / 5)⌋ + 1 < (32 : ℤ) - 1),
      getD_replicate_zero]
  refine ⟨?_, ?_, h3, ?_, ?_⟩
  · intro h1
    simp only [bucketize, List.foldl_cons, List.foldl_nil, bucketize_default_labels,
      Nat.cast_ofNat]
    rw [if_pos h1, getD_replicate_zero]
  · intro h2
    simp only [bucketize, List.foldl_cons, List.foldl_nil, bucketize_default_labels,
      Nat.cast_ofNat]
    rw [if_neg (by linarith : ¬(v < 16)), if_pos h2, getD_replicate_zero]
  · intro hv
    subst hv
    rw [h3 (le_refl 16) (by norm_num)]
    norm_num
  · have e1 : (List.replicate 32 (0 : ℕ)).getD 0 0 + 1 = 1 := by decide
    have e2 : ((List.replicate 32 (0 : ℕ)).set 0 1).getD 1 0 + 1 = 1 := by decide
    have e3 : (((List.replicate 32 (0 : ℕ)).set 0 1).set 1 1).getD 30 0 + 1 = 1 := by decide
    have e4 : ((((List.replicate 32 (0 : ℕ)).set 0 1).set 1 1).set 30 1).getD 31 0 + 1 = 1 := by
      decide
    have g2 : (⌊((16 : ℚ) - 16) / (1 / 5)⌋ + 1).toNat = 1 := by norm_num
    have g2c : 0 < ⌊((16 : ℚ) - 16) / (1 / 5)⌋ + 1 ∧
        ⌊((16 : ℚ) - 16) / (1 / 5)⌋ + 1 < (32 : ℤ) - 1 := by norm_num
    have g3 : (⌊((2199 / 100 : ℚ) - 16) / (1 / 5)⌋ + 1).toNat = 30 := by
      norm_num
      decide
    have g3c : 0 < ⌊((2199 / 100 : ℚ) - 16) / (1 / 5)⌋ + 1 ∧
        ⌊((2199 / 100 : ℚ) - 16) / (1 / 5)⌋ + 1 < (32 : ℤ) - 1 := by norm_num
    simp only [bucketize, List.foldl_cons, List.foldl_nil, bucketize_default_labels,
      Nat.cast_ofNat]
    rw [if_pos (by norm_num : (159 / 10 : ℚ) < 16), e1]
    rw [if_neg (by norm_num : ¬((16 : ℚ) < 16)), if_neg (by norm_num : ¬((22 : ℚ) ≤ 16)),
      if_pos g2c, g2, e2]
    rw [if_neg (by norm_num : ¬((2199 / 100 : ℚ) < 16)),
      if_neg (by norm_num : ¬((22 : ℚ) ≤ 2199 / 100)), if_pos g3c, g3, e3]
    rw [if_neg (by norm_num : ¬((22 : ℚ) < 16)), if_pos (le_refl (22 : ℚ)), e4]

/-- Witness for C6 at the boundary values 15.9, 16 and 22. -/
theorem bucketize_assignment_witness :
    bucketize [(159 / 10 : ℚ)] (1 / 5) 16 22 = (List.replicate 32 0).set 0 1 ∧
    bucketize [(16 : ℚ)] (1 / 5) 16 22 = (List.replicate 32 0).set 1 1 ∧
    bucketize [(22 : ℚ)] (1 / 5) 16 22 = (List.replicate 32 0).set 31 1 :=
  ⟨(bucketize_assignment (159 / 10)).1 (by norm_num),
   (bucketize_assignment 16).2.2.2.1 rfl,
   (bucketize_assignment 22).2.1 (by norm_num)⟩

/-- A list starting with the Infinity literal has no leading digit run and
no leading decimal point after it. -/
theorem inf_literal_parts {u : List Char} (hp : startsWithSeq "Infinity".data u = true) :
    u.takeWhile Char.isDigit = [] ∧ ¬((u.dropWhile Char.isDigit).headD ' ' = '.') := by
  cases u with
  | nil => exact absurd hp (by decide)
  | cons c cs =>
    have hexp : "Infinity".data = 'I' :: "nfinity".data := rfl
    rw [hexp] at hp
    simp only [startsWithSeq, Bool.and_eq_true, decide_eq_true_eq] at hp
    obtain ⟨h1, -⟩ := hp
    subst h1
    refine ⟨?_, ?_⟩
    · simp
    · simp

/-- An Infinity-literal magnitude is NaN in the finite-only model: the
restricted parseFloat recognises no finite literal there. -/
theorem parseFloat_none_of_infinity {s : List Char}
    (hp : startsWithSeq "Infinity".data
      (if (s.dropWhile jsIsSpace).headD ' ' = '-' ∨ (s.dropWhile jsIsSpace).headD ' ' = '+'
        then (s.dropWhile jsIsSpace).tail else s.dropWhile jsIsSpace) = true) :
    parseFloat s = none := by
  obtain ⟨hip, hdot⟩ := inf_literal_parts hp
  have hsyn : parseFloatSyntax s = none := by
    simp only [parseFloatSyntax]
    rw [hip, if_neg hdot]
    simp
  rw [parseFloat, hsyn]
  rfl

/-- Away from the Infinity literal, the extended parseFloat agrees with the
finite-only one. -/
theorem parseFloatX_not_inf {s : List Char}
    (hnp : startsWithSeq "Infinity".data
      (if (s.dropWhile jsIsSpace).headD ' ' = '-' ∨ (s.dropWhile jsIsSpace).headD ' ' = '+'
        then (s.dropWhile jsIsSpace).tail else s.dropWhile jsIsSpace) = false) :
    parseFloatX s =
      (match parseFloat s with
        | some q => JSNumX.fin q
        | none => JSNumX.nan) := by
  have hg : ¬(startsWithSeq "Infinity".data
      (if (s.dropWhile jsIsSpace).headD ' ' = '-' ∨ (s.dropWhile jsIsSpace).headD ' ' = '+'
        then (s.dropWhile jsIsSpace).tail else s.dropWhile jsIsSpace) = true) := by
    rw [hnp]
    exact fun h => Bool.noConfusion h
  simp only [parseFloatX]
  rw [if_neg hg]

/-- Extended parseFloat on a finite parse. -/
theorem parseFloatX_fin {s : List Char} {q : ℚ}
    (hnp : startsWithSeq "Infinity".data
      (if (s.dropWhile jsIsSpace).headD ' ' = '-' ∨ (s.dropWhile jsIsSpace).headD ' ' = '+'
        then (s.dropWhile jsIsSpace).tail else s.dropWhile jsIsSpace) = false)
    (h : parseFloat s = some q) : parseFloatX s = JSNumX.fin q := by
  rw [parseFloatX_not_inf hnp, h]

/-- Extended parseFloat on a failed parse. -/
theorem parseFloatX_nan {s : List Char}
    (hnp : startsWithSeq "Infinity".data
      (if (s.dropWhile jsIsSpace).headD ' ' = '-' ∨ (s.dropWhile jsIsSpace).headD ' ' = '+'
        then (s.dropWhile jsIsSpace).tail else s.dropWhile jsIsSpace) = false)
    (h : parseFloat s = none) : parseFloatX s = JSNumX.nan := by
  rw [parseFloatX_not_inf hnp, h]

/-- The finite-only parseFloat is exactly the finite part of the extended
one: the two models agree on every string, the restricted one mapping both
NaN and the infinities to none. -/
theorem parseFloatX_finite_agrees (s : List Char) :
    parseFloat s =
      (match parseFloatX s with
        | JSNumX.fin q => some q
        | _ => none) := by
  by_cases hp : startsWithSeq "Infinity".data
      (if (s.dropWhile jsIsSpace).headD ' ' = '-' ∨ (s.dropWhile jsIsSpace).headD ' ' = '+'
        then (s.dropWhile jsIsSpace).tail else s.dropWhile jsIsSpace) = true
  · rw [parseFloat_none_of_infinity hp]
    simp only [parseFloatX]
    rw [if_pos hp]
    by_cases hn : (s.dropWhile jsIsSpace).headD ' ' = '-'
    · rw [if_pos hn]
    · rw [if_neg hn]
  · have hnp : startsWithSeq "Infinity".data
        (if (s.dropWhile jsIsSpace).headD ' ' = '-' ∨ (s.dropWhile jsIsSpace).headD ' ' = '+'
          then (s.dropWhile jsIsSpace).tail else s.dropWhile jsIsSpace) = false := by
      cases hb : startsWithSeq "Infinity".data
          (if (s.dropWhile jsIsSpace).headD ' ' = '-' ∨ (s.dropWhile jsIsSpace).headD ' ' = '+'
            then (s.dropWhile jsIsSpace).tail else s.dropWhile jsIsSpace) with
      | false => rfl
      | true => exact absurd hb hp
    rw [parseFloatX_not_inf hnp]
    cases h : parseFloat s with
    | none => rfl
    | some q => rfl

set_option maxRecDepth 8192 in
/-- Counterexample to C2 as stated: a 9-field data line whose magnitude
field is the Infinity literal does not parse to a finite number, yet it is
not discarded - the isNaN-only check of part_000 line 200 lets the
non-finite magnitude reach allSqmValues, polarData and the median buffer. -/
theorem infinity_magnitude_not_discarded :
    9 ≤ (jsFields exInfLine).length ∧
    parseFloatX ((jsFields exInfLine)[5]?.getD []) = JSNumX.posInf ∧
    parseSqmStateX exInfLine =
      ⟨true, [JSNumX.posInf], [JSNumX.posInf],
        [⟨"12:00:00".data, JSNumX.posInf, JSNumX.fin 50, JSNumX.fin 100⟩]⟩ := by
  have h5 : (jsFields exInfLine)[5]?.getD [] = "Infinity".data := by decide
  have hpfInf : parseFloatX "Infinity".data = JSNumX.posInf := by decide
  have h2 : (jsFields exInfLine)[2]?.getD [] = "12:00:00".data := by decide
  have h7 : (jsFields exInfLine)[7]?.getD [] = "50".data := by decide
  have h8 : (jsFields exInfLine)[8]?.getD [] = "100".data := by decide
  have h50v : parseFloat "50".data = some 50 := by
    rw [parseFloat_eq_of_parts (by decide :
      parseFloatSyntax "50".data = some ⟨false, ['5', '0'], [], false, []⟩), floatValue_50]
  have h100v : parseFloat "100".data = some 100 := by
    rw [parseFloat_eq_of_parts (by decide :
      parseFloatSyntax "100".data = some ⟨false, ['1', '0', '0'], [], false, []⟩),
      floatValue_100]
  have hpf50 : parseFloatX "50".data = JSNumX.fin 50 := parseFloatX_fin (by decide) h50v
  have hpf100 : parseFloatX "100".data = JSNumX.fin 100 := parseFloatX_fin (by decide) h100v
  refine ⟨by decide, by rw [h5, hpfInf], ?_⟩
  have hsplit : splitLines exInfLine = [exInfLine] := by decide
  rw [parseSqmStateX, hsplit, List.foldl_cons, List.foldl_nil]
  simp only [processLineX]
  rw [if_neg (by decide : ¬ skipsLineX ⟨false, [], [], []⟩ (jsTrim exInfLine))]
  rw [if_neg (by decide : ¬((jsTrim exInfLine).length = 0))]
  rw [if_pos (by decide : 9 ≤ (jsFields exInfLine).length)]
  rw [h5, hpfInf, h2, h7, h8, hpf50, hpf100]
  have hok : polarOkX "12:00:00".data (JSNumX.fin 50) (JSNumX.fin 100) :=
    ⟨by decide, by decide, by decide⟩
  have hgt : okGtX (JSNumX.fin 50) 45 = true := by decide
  simp [hok, hgt]

/-- C2 amended: after data start, a line splitting into fewer than 9 fields
contributes to no output sequence, and so does a line with at least 9
fields whose magnitude field parses to NaN; a magnitude field parsing to
the non-finite value Infinity is not discarded - its value is appended to
allSqmValues like any parsed magnitude. -/
theorem nan_or_short_line_contributes_nothing (st : ParseStateX) (line : List Char)
    (hds : st.dataStarted = true) :
    ((jsFields line).length < 9 → processLineX st line = st) ∧
    (9 ≤ (jsFields line).length → parseFloatX ((jsFields line)[5]?.getD []) = JSNumX.nan →
      processLineX st line = st) ∧
    (9 ≤ (jsFields line).length → parseFloatX ((jsFields line)[5]?.getD []) = JSNumX.posInf →
      (processLineX st line).allSqmValues = st.allSqmValues ++ [JSNumX.posInf]) := by
  obtain ⟨d, med, all, pol⟩ := st
  subst hds
  have hskip : ¬ skipsLineX ⟨true, med, all, pol⟩ (jsTrim line) := fun h => by
    simpa using h.1
  refine ⟨?_, ?_, ?_⟩
  · intro h9
    simp only [processLineX]
    rw [if_neg hskip]
    by_cases h0 : (jsTrim line).length = 0
    · rw [if_pos h0]
    · rw [if_neg h0, if_neg (by omega : ¬(9 ≤ (jsFields line).length))]
  · intro h9 hnan
    simp only [processLineX]
    rw [if_neg hskip, if_neg (fields_nonempty_trim h9), if_pos h9, hnan]
  · intro h9 hinf
    simp only [processLineX]
    rw [if_neg hskip, if_neg (fields_nonempty_trim h9), if_pos h9, hinf]
    by_cases hok : polarOkX ((jsFields line)[2]?.getD [])
        (parseFloatX ((jsFields line)[7]?.getD []))
        (parseFloatX ((jsFields line)[8]?.getD []))
    · by_cases hg : okGtX (parseFloatX ((jsFields line)[7]?.getD [])) 45 = true
      · simp [hok, hg]
      · simp [hok, hg]
    · by_cases hg : okGtX (parseFloatX ((jsFields line)[7]?.getD [])) 45 = true
      · simp [hok, hg]
      · simp [hok, hg]

set_option maxRecDepth 8192 in
/-- Witness for the amended C2: a 3-field line and a NaN-magnitude 9-field
line leave a concrete post-data-start state unchanged, while the
Infinity-magnitude line appends its non-finite magnitude. -/
theorem nan_or_short_line_witness :
    processLineX ⟨true, [], [], []⟩ "1 2 3".data = ⟨true, [], [], []⟩ ∧
    processLineX ⟨true, [], [], []⟩ exNoMag = ⟨true, [], [], []⟩ ∧
    (processLineX ⟨true, [], [], []⟩ exInfLine).allSqmValues = [] ++ [JSNumX.posInf] := by
  have hnan : parseFloatX ((jsFields exNoMag)[5]?.getD []) = JSNumX.nan := by
    have h5 : (jsFields exNoMag)[5]?.getD [] = "u".data := by decide
    rw [h5]
    exact parseFloatX_nan (by decide) (parseFloat_eq_none (by decide))
  have hinf : parseFloatX ((jsFields exInfLine)[5]?.getD []) = JSNumX.posInf := by
    have h5 : (jsFields exInfLine)[5]?.getD [] = "Infinity".data := by decide
    rw [h5]
    decide
  exact ⟨(nan_or_short_line_contributes_nothing ⟨true, [], [], []⟩ "1 2 3".data rfl).1
      (by decide),
    (nan_or_short_line_contributes_nothing ⟨true, [], [], []⟩ exNoMag rfl).2.1
      (by decide) hnan,
    (nan_or_short_line_contributes_nothing ⟨true, [], [], []⟩ exInfLine rfl).2.2
      (by decide) hinf⟩
